import Mathlib

/-!
Verification of the cubie-model Rubiks Cube implementation
(RubiksCube.cpp): piece-based state, move-table registry with derived
double and inverse moves, move application, notation handling,
scrambling and the numeric rotate facade.

The state is embedded with piece indices typed as Fin 8 / Fin 12
(the C++ stores them in uint8_t slots and only ever writes values in
those ranges) while orientations are plain Nat, so the orientation
range invariants remain real proof obligations.
-/

/-- One corner slot: which piece occupies it and its twist.
Mirrors the C++ corner slot pair (index, orientation). -/
@[ext]
structure CornerPiece where
  index : Fin 8
  orientation : Nat
  deriving DecidableEq

/-- One edge slot: which piece occupies it and its flip.
Mirrors the C++ edge slot pair (index, orientation). -/
@[ext]
structure EdgePiece where
  index : Fin 12
  orientation : Nat
  deriving DecidableEq

/-- The cube state: 8 corner slots and 12 edge slots.
Mirrors the members corners and edges of class RubiksCube. -/
@[ext]
structure RubiksCube where
  corners : Fin 8 → CornerPiece
  edges : Fin 12 → EdgePiece

instance : DecidableEq RubiksCube := fun a b =>
  decidable_of_iff (a.corners = b.corners ∧ a.edges = b.edges)
    (by cases a; cases b; simp)

/-- The solved state built by RubiksCube::reset: slot i holds piece i
with orientation 0. -/
def solvedCube : RubiksCube :=
  { corners := fun i => ⟨i, 0⟩, edges := fun i => ⟨i, 0⟩ }

/-- RubiksCube::isSolved: every slot holds its matching piece with
orientation 0. -/
def isSolved (c : RubiksCube) : Bool :=
  decide (∀ i : Fin 8, (c.corners i).index = i ∧ (c.corners i).orientation = 0) &&
  decide (∀ i : Fin 12, (c.edges i).index = i ∧ (c.edges i).orientation = 0)

/-- A move definition: where each slot pulls its piece from, and the
orientation deltas.  Mirrors struct MoveDef. -/
structure MoveDef where
  corner_perm : Fin 8 → Fin 8
  corner_ori_delta : Fin 8 → Nat
  edge_perm : Fin 12 → Fin 12
  edge_ori_delta : Fin 12 → Nat

/-- The pull composition used both by RubiksCube::applyMove and by the
applyLocal lambda of initMoveTablesOnce: slot i reads the piece at
perm i and adds the delta, modulo 3 for corners and 2 for edges. -/
def applyDef (d : MoveDef) (c : RubiksCube) : RubiksCube :=
  { corners := fun i =>
      ⟨(c.corners (d.corner_perm i)).index,
       ((c.corners (d.corner_perm i)).orientation + d.corner_ori_delta i) % 3⟩,
    edges := fun i =>
      ⟨(c.edges (d.edge_perm i)).index,
       ((c.edges (d.edge_perm i)).orientation + d.edge_ori_delta i) % 2⟩ }

/-- Reading a move table off a simulated state, as initMoveTablesOnce
does after running applyLocal: per slot, which original piece occupies
it and its accumulated orientation. -/
def mState (s : RubiksCube) : MoveDef :=
  { corner_perm := fun i => (s.corners i).index,
    corner_ori_delta := fun i => (s.corners i).orientation,
    edge_perm := fun i => (s.edges i).index,
    edge_ori_delta := fun i => (s.edges i).orientation }

/-- The derivation of initMoveTablesOnce: start from a fresh solved
reference state, apply the base definition n times (n = 2 for the
double move, n = 3 for the inverse move) and read off the table. -/
def deriveDef (n : Nat) (d : MoveDef) : MoveDef :=
  mState ((applyDef d)^[n] solvedCube)

/-- Hand-authored base table for U from initMoveTablesOnce. -/
def uDef : MoveDef :=
  { corner_perm := ![3, 0, 1, 2, 4, 5, 6, 7],
    corner_ori_delta := ![0, 0, 0, 0, 0, 0, 0, 0],
    edge_perm := ![3, 0, 1, 2, 4, 5, 6, 7, 8, 9, 10, 11],
    edge_ori_delta := ![0, 0, 0, 0, 0, 0, 0, 0, 0, 0, 0, 0] }

/-- Hand-authored base table for D from initMoveTablesOnce. -/
def dDef : MoveDef :=
  { corner_perm := ![0, 1, 2, 3, 5, 6, 7, 4],
    corner_ori_delta := ![0, 0, 0, 0, 0, 0, 0, 0],
    edge_perm := ![0, 1, 2, 3, 5, 6, 7, 4, 8, 9, 10, 11],
    edge_ori_delta := ![0, 0, 0, 0, 0, 0, 0, 0, 0, 0, 0, 0] }

/-- Hand-authored base table for R from initMoveTablesOnce. -/
def rDef : MoveDef :=
  { corner_perm := ![0, 1, 2, 3, 5, 6, 7, 4],
    corner_ori_delta := ![0, 0, 0, 0, 2, 1, 2, 1],
    edge_perm := ![0, 9, 2, 3, 4, 5, 6, 7, 8, 11, 10, 1],
    edge_ori_delta := ![0, 0, 0, 0, 0, 0, 0, 0, 0, 0, 0, 0] }

/-- Hand-authored base table for L from initMoveTablesOnce. -/
def lDef : MoveDef :=
  { corner_perm := ![2, 6, 7, 3, 4, 0, 1, 5],
    corner_ori_delta := ![1, 2, 1, 0, 0, 2, 1, 0],
    edge_perm := ![0, 1, 10, 3, 4, 5, 9, 7, 8, 2, 6, 11],
    edge_ori_delta := ![0, 0, 0, 0, 0, 0, 0, 0, 0, 0, 0, 0] }

/-- Hand-authored base table for F from initMoveTablesOnce. -/
def fDef : MoveDef :=
  { corner_perm := ![1, 5, 2, 3, 0, 4, 6, 7],
    corner_ori_delta := ![1, 2, 0, 0, 2, 1, 0, 0],
    edge_perm := ![0, 8, 2, 3, 4, 9, 6, 7, 5, 1, 10, 11],
    edge_ori_delta := ![0, 1, 0, 0, 0, 1, 0, 0, 1, 1, 0, 0] }

/-- Hand-authored base table for B from initMoveTablesOnce. -/
def bDef : MoveDef :=
  { corner_perm := ![0, 1, 3, 7, 4, 5, 2, 6],
    corner_ori_delta := ![0, 0, 1, 2, 0, 0, 2, 1],
    edge_perm := ![0, 1, 2, 11, 4, 5, 6, 10, 8, 9, 3, 7],
    edge_ori_delta := ![0, 0, 0, 1, 0, 0, 0, 1, 0, 0, 1, 1] }

/-- The 18 canonical move names: the keys of g_moveTables. -/
def canonicalNames : List String :=
  ["U", "D", "R", "L", "F", "B",
   "U2", "D2", "R2", "L2", "F2", "B2",
   "U\x27", "D\x27", "R\x27", "L\x27", "F\x27", "B\x27"]

/-- The move-table registry g_moveTables after initMoveTablesOnce: the
six base tables are hand-authored, each double move is derived by
applying the base twice from solved, each inverse move by applying it
three times from solved.  Lookup is by exact string match, as with
unordered_map find. -/
def g_moveTables (m : String) : Option MoveDef :=
  if m = "U" then some uDef
  else if m = "D" then some dDef
  else if m = "R" then some rDef
  else if m = "L" then some lDef
  else if m = "F" then some fDef
  else if m = "B" then some bDef
  else if m = "U2" then some (deriveDef 2 uDef)
  else if m = "D2" then some (deriveDef 2 dDef)
  else if m = "R2" then some (deriveDef 2 rDef)
  else if m = "L2" then some (deriveDef 2 lDef)
  else if m = "F2" then some (deriveDef 2 fDef)
  else if m = "B2" then some (deriveDef 2 bDef)
  else if m = "U\x27" then some (deriveDef 3 uDef)
  else if m = "D\x27" then some (deriveDef 3 dDef)
  else if m = "R\x27" then some (deriveDef 3 rDef)
  else if m = "L\x27" then some (deriveDef 3 lDef)
  else if m = "F\x27" then some (deriveDef 3 fDef)
  else if m = "B\x27" then some (deriveDef 3 bDef)
  else none

/-- The single error kind of the move API: std::invalid_argument
thrown by RubiksCube::applyMove for an unrecognized token. -/
inductive CubeError where
  | invalidMove : String → CubeError
  deriving DecidableEq

/-- RubiksCube::applyMove on a string token: look up the token; on a
miss throw InvalidMove leaving the state untouched, otherwise apply
the definition.  The pair is (state after the call, thrown error). -/
def applyMove (move : String) (c : RubiksCube) : RubiksCube × Option CubeError :=
  match g_moveTables move with
  | none => (c, some (CubeError.invalidMove move))
  | some d => (applyDef d c, none)

/-- Whitespace as recognized by stringstream extraction in the C
locale. -/
def isSpaceChar (ch : Char) : Bool :=
  ch = ' ' || ch = '\t' || ch = '\n' || ch = '\x0b' || ch = '\x0c' || ch = '\r'

/-- Tokenization performed by the extraction loop in
RubiksCube::applyMoves: split on whitespace, ignoring empty runs. -/
def tokenize (s : String) : List String :=
  (s.split isSpaceChar).filter (fun t => t ≠ "")

/-- The token loop of RubiksCube::applyMoves: apply each token in
order; a thrown InvalidMove stops the loop with prior effects kept. -/
def applyTokens : List String → RubiksCube → RubiksCube × Option CubeError
  | [], c => (c, none)
  | t :: ts, c =>
    match applyMove t c with
    | (c1, none) => applyTokens ts c1
    | (c1, some e) => (c1, some e)

/-- RubiksCube::applyMoves on a whitespace-separated sequence. -/
def applyMoves (s : String) (c : RubiksCube) : RubiksCube × Option CubeError :=
  applyTokens (tokenize s) c

/-- Fold used to state what a sequence of successful applyMove calls
does to the state. -/
def applyMoveList (ms : List String) (c : RubiksCube) : RubiksCube :=
  ms.foldl (fun st t => (applyMove t st).1) c

/-- The validity conditions of the state model: corner piece indices a
permutation of 0..7, edge piece indices a permutation of 0..11, corner
orientations below 3, edge orientations below 2. -/
def ValidCube (c : RubiksCube) : Prop :=
  Function.Bijective (fun i => (c.corners i).index) ∧
  (∀ i, (c.corners i).orientation < 3) ∧
  Function.Bijective (fun i => (c.edges i).index) ∧
  (∀ i, (c.edges i).orientation < 2)

instance (c : RubiksCube) : Decidable (ValidCube c) := by
  unfold ValidCube; infer_instance

/-- Well-formedness check of one registry entry, used to transport
bijectivity of the stored permutations. -/
def lookupBij (m : String) : Bool :=
  match g_moveTables m with
  | none => true
  | some d =>
      decide (Function.Bijective d.corner_perm) && decide (Function.Bijective d.edge_perm)

/-- The vector of all 18 move names built by scramble from the
registry keys (the iteration order of the unordered map is not
specified; the claims proved about scramble do not depend on it). -/
def moveAt (i : Fin 18) : String := canonicalNames.getD i.val ""

/-- The generation loop of RubiksCube::scramble: remaining count,
current index, accumulated text; each step draws a move name, appends
it (with a separating space unless it is the last one) and applies it. -/
def scrambleLoop (draws : Nat → Fin 18) : Nat → Nat → String → RubiksCube →
    String × RubiksCube
  | 0, _, acc, c => (acc, c)
  | k + 1, i, acc, c =>
    scrambleLoop draws k (i + 1)
      (if k = 0 then acc ++ moveAt (draws i) else acc ++ moveAt (draws i) ++ " ")
      ((applyMove (moveAt (draws i)) c).1)

/-- RubiksCube::scramble with the successive values drawn from the
uniform distribution supplied as the draws stream.  A non-positive
length runs the loop zero times. -/
def scramble (draws : Nat → Fin 18) (length : Int) (c : RubiksCube) :
    String × RubiksCube :=
  scrambleLoop draws length.toNat 0 "" c

/-- Modelled from the spec: tokens joined by single spaces with no
leading or trailing space. -/
def joinTokens : List String → String
  | [] => ""
  | [t] => t
  | t :: ts => t ++ " " ++ joinTokens ts

/-- The list of tokens drawn by scramble for a given draw stream. -/
def scrambleTokens (draws : Nat → Fin 18) (n : Nat) : List String :=
  (List.range n).map fun j => moveAt (draws j)

/-- The names array indexed by the in-range numeric faces of
RubiksCube::rotate. -/
def faceName (face : Int) : String :=
  ["U", "D", "R", "L", "F", "B"].getD face.toNat ""

/-- RubiksCube::rotate with numeric face and direction: invalid faces
are silently ignored; direction -1 selects the primed token, 2 and -2
the double token, anything else the base token. -/
def rotate (face direction : Int) (c : RubiksCube) : RubiksCube × Option CubeError :=
  if face < 0 ∨ 5 < face then (c, none)
  else
    applyMove
      (if direction = -1 then faceName face ++ "\x27"
       else if direction = 2 ∨ direction = -2 then faceName face ++ "2"
       else faceName face) c

lemma applyDef_mState_apply (d : MoveDef) (s c : RubiksCube) :
    applyDef (mState (applyDef d s)) c = applyDef d (applyDef (mState s) c) := by
  ext i <;> simp [applyDef, mState] <;> omega

lemma applyDef_mState_one (d : MoveDef) (c : RubiksCube) :
    applyDef (mState (applyDef d solvedCube)) c = applyDef d c := by
  ext i <;> simp [applyDef, mState, solvedCube] <;> omega

lemma applyDef_deriveDef_two (d : MoveDef) (c : RubiksCube) :
    applyDef (deriveDef 2 d) c = applyDef d (applyDef d c) := by
  have h2 : deriveDef 2 d = mState (applyDef d (applyDef d solvedCube)) := rfl
  rw [h2, applyDef_mState_apply, applyDef_mState_one]

lemma validCube_applyDef (d : MoveDef) (hcp : Function.Bijective d.corner_perm)
    (hep : Function.Bijective d.edge_perm) (c : RubiksCube) (h : ValidCube c) :
    ValidCube (applyDef d c) := by
  obtain ⟨h1, _, h3, _⟩ := h
  refine ⟨?_, ?_, ?_, ?_⟩
  · exact h1.comp hcp
  · intro i; simp [applyDef]; omega
  · exact h3.comp hep
  · intro i; simp [applyDef]; omega

set_option maxHeartbeats 4000000 in
lemma all_lookup_bij : ∀ m ∈ canonicalNames, lookupBij m = true := by decide

set_option maxHeartbeats 3200000 in
lemma mem_canonical_iff (m : String) :
    (g_moveTables m).isSome = true ↔ m ∈ canonicalNames := by
  by_cases hm : m ∈ canonicalNames
  · refine iff_of_true ?_ hm
    fin_cases hm <;> decide
  · refine iff_of_false ?_ hm
    have h : g_moveTables m = none := by
      simp only [canonicalNames, List.mem_cons, List.not_mem_nil, or_false] at hm
      push_neg at hm
      obtain ⟨n1, n2, n3, n4, n5, n6, n7, n8, n9, n10, n11, n12, n13, n14, n15, n16, n17,
        n18⟩ := hm
      simp only [g_moveTables, if_neg n1, if_neg n2, if_neg n3, if_neg n4, if_neg n5,
        if_neg n6, if_neg n7, if_neg n8, if_neg n9, if_neg n10, if_neg n11, if_neg n12,
        if_neg n13, if_neg n14, if_neg n15, if_neg n16, if_neg n17, if_neg n18]
    simp [h]

lemma bij_of_lookup (m : String) (d : MoveDef) (h : g_moveTables m = some d) :
    Function.Bijective d.corner_perm ∧ Function.Bijective d.edge_perm := by
  have hm : m ∈ canonicalNames := (mem_canonical_iff m).mp (by rw [h]; rfl)
  have hb := all_lookup_bij m hm
  unfold lookupBij at hb
  rw [h] at hb
  simpa [Bool.and_eq_true, decide_eq_true_eq] using hb

/-- Claim C1: starting from any valid cube state (corner piece indices
a permutation of 0..7, edge piece indices a permutation of 0..11,
corner orientations in 0..2, edge orientations in 0..1), applying any
sequence of the 18 canonical moves via applyMove yields a state that
still satisfies all four conditions. -/
theorem validCube_preserved (c : RubiksCube) (hc : ValidCube c) (ms : List String)
    (hm : ∀ m ∈ ms, m ∈ canonicalNames) : ValidCube (applyMoveList ms c) := by
  revert hc hm
  induction ms generalizing c with
  | nil => intro hc _; exact hc
  | cons t ts ih =>
    intro hc hm
    have ht : t ∈ canonicalNames := hm t (by simp)
    have hsome : (g_moveTables t).isSome = true := (mem_canonical_iff t).mpr ht
    obtain ⟨d, hd⟩ := Option.isSome_iff_exists.mp hsome
    have hstep : applyMoveList (t :: ts) c = applyMoveList ts ((applyMove t c).1) := rfl
    have hc1 : (applyMove t c).1 = applyDef d c := by simp [applyMove, hd]
    rw [hstep, hc1]
    exact ih (applyDef d c)
      (validCube_applyDef d (bij_of_lookup t d hd).1 (bij_of_lookup t d hd).2 c hc)
      (fun x hx => hm x (List.mem_cons_of_mem t hx))

/-- Witness for C1 at a concrete valid state and move sequence. -/
theorem validCube_preserved_witness :
    ValidCube (applyMoveList ["L", "R\x27", "U2"] solvedCube) :=
  validCube_preserved solvedCube (by decide) _ (by decide)

/-- Claim C2: for each base move m, the registry entries m2 and
m-prime are exactly the tables derived by applying the hand-authored
base definition twice respectively three times to a fresh solved
reference state with the pull-composition rule, and consequently
applying the base move twice to any cube state gives exactly the state
produced by applying the derived double move once. -/
theorem derived_moves_from_base (m : String) (hm : m ∈ ["U", "D", "R", "L", "F", "B"]) :
    ∃ d, g_moveTables m = some d ∧
      g_moveTables (m ++ "2") = some (deriveDef 2 d) ∧
      g_moveTables (m ++ "\x27") = some (deriveDef 3 d) ∧
      ∀ c, (applyMove (m ++ "2") c).1 = (applyMove m (applyMove m c).1).1 := by
  fin_cases hm
  · exact ⟨uDef, rfl, rfl, rfl, fun c => by
      show applyDef (deriveDef 2 uDef) c = applyDef uDef (applyDef uDef c)
      exact applyDef_deriveDef_two uDef c⟩
  · exact ⟨dDef, rfl, rfl, rfl, fun c => by
      show applyDef (deriveDef 2 dDef) c = applyDef dDef (applyDef dDef c)
      exact applyDef_deriveDef_two dDef c⟩
  · exact ⟨rDef, rfl, rfl, rfl, fun c => by
      show applyDef (deriveDef 2 rDef) c = applyDef rDef (applyDef rDef c)
      exact applyDef_deriveDef_two rDef c⟩
  · exact ⟨lDef, rfl, rfl, rfl, fun c => by
      show applyDef (deriveDef 2 lDef) c = applyDef lDef (applyDef lDef c)
      exact applyDef_deriveDef_two lDef c⟩
  · exact ⟨fDef, rfl, rfl, rfl, fun c => by
      show applyDef (deriveDef 2 fDef) c = applyDef fDef (applyDef fDef c)
      exact applyDef_deriveDef_two fDef c⟩
  · exact ⟨bDef, rfl, rfl, rfl, fun c => by
      show applyDef (deriveDef 2 bDef) c = applyDef bDef (applyDef bDef c)
      exact applyDef_deriveDef_two bDef c⟩

/-- Witness for C2 at the base move U. -/
theorem derived_moves_from_base_witness :
    ∃ d, g_moveTables "U" = some d ∧
      g_moveTables ("U" ++ "2") = some (deriveDef 2 d) ∧
      g_moveTables ("U" ++ "\x27") = some (deriveDef 3 d) ∧
      ∀ c, (applyMove ("U" ++ "2") c).1 = (applyMove "U" (applyMove "U" c).1).1 :=
  derived_moves_from_base "U" (by decide)

set_option maxHeartbeats 1600000 in
/-- Claim C3 (refuting evaluation): applying R and then its inverse to
the solved cube does not restore it (edge slot 1 ends up holding piece
9 because the hand-authored R edge permutation is a 3-cycle), and
applying L and then its inverse does not restore it either (corner
slot 0 ends up twisted because the L corner orientation deltas do not
cancel modulo 3). -/
theorem applyMove_inverse_fails :
    (applyMove "R\x27" (applyMove "R" solvedCube).1).1 ≠ solvedCube ∧
    (((applyMove "R\x27" (applyMove "R" solvedCube).1).1.edges 1).index = (9 : Fin 12)) ∧
    (applyMove "L\x27" (applyMove "L" solvedCube).1).1 ≠ solvedCube ∧
    (((applyMove "L\x27" (applyMove "L" solvedCube).1).1.corners 0).orientation = 1) := by
  refine ⟨by decide, by decide, by decide, by decide⟩

set_option maxHeartbeats 1600000 in
/-- Claim C4: isSolved is true exactly when every corner and edge slot
holds its own piece with orientation 0, equivalently exactly on the
unique identity state, and applying any single one of the 18 canonical
moves to the solved cube makes it false. -/
theorem isSolved_spec :
    (∀ c, isSolved c = true ↔
      ((∀ i : Fin 8, (c.corners i).index = i ∧ (c.corners i).orientation = 0) ∧
       (∀ i : Fin 12, (c.edges i).index = i ∧ (c.edges i).orientation = 0))) ∧
    (∀ c, isSolved c = true ↔ c = solvedCube) ∧
    (∀ m ∈ canonicalNames, isSolved (applyMove m solvedCube).1 = false) := by
  have h1 : ∀ c, isSolved c = true ↔
      ((∀ i : Fin 8, (c.corners i).index = i ∧ (c.corners i).orientation = 0) ∧
       (∀ i : Fin 12, (c.edges i).index = i ∧ (c.edges i).orientation = 0)) := by
    intro c
    simp [isSolved]
  refine ⟨h1, ?_, by decide⟩
  intro c
  rw [h1 c]
  constructor
  · rintro ⟨hc, he⟩
    ext i
    · rw [(hc i).1]; simp [solvedCube]
    · rw [(hc i).2]; simp [solvedCube]
    · rw [(he i).1]; simp [solvedCube]
    · rw [(he i).2]; simp [solvedCube]
  · rintro rfl
    exact ⟨fun i => ⟨rfl, rfl⟩, fun i => ⟨rfl, rfl⟩⟩

/-- Witness for C4: the move U unsolves the solved cube. -/
theorem isSolved_spec_witness :
    isSolved (applyMove "U" solvedCube).1 = false :=
  isSolved_spec.2.2 "U" (by decide)

/-- Claim C5: applyMove succeeds exactly on the 18 canonical tokens;
on any other token it fails with InvalidMove carrying that token and
leaves the state unchanged. -/
theorem applyMove_error_spec (m : String) (c : RubiksCube) :
    (m ∈ canonicalNames ∧ (applyMove m c).2 = none) ∨
    (m ∉ canonicalNames ∧ applyMove m c = (c, some (CubeError.invalidMove m))) := by
  cases hg : g_moveTables m with
  | none =>
    refine Or.inr ⟨?_, by simp [applyMove, hg]⟩
    intro hmem
    have hs := (mem_canonical_iff m).mpr hmem
    rw [hg] at hs
    exact Bool.noConfusion hs
  | some d =>
    exact Or.inl ⟨(mem_canonical_iff m).mp (by rw [hg]; rfl), by simp [applyMove, hg]⟩

lemma applyTokens_spec (ts : List String) (c : RubiksCube) :
    applyTokens ts c =
      ((ts.takeWhile fun t => (g_moveTables t).isSome).foldl (fun st t => (applyMove t st).1) c,
       ((ts.dropWhile fun t => (g_moveTables t).isSome).head?).map CubeError.invalidMove) := by
  induction ts generalizing c with
  | nil => simp [applyTokens]
  | cons t ts ih =>
    cases hg : g_moveTables t with
    | none =>
      have h1 : applyTokens (t :: ts) c = (c, some (CubeError.invalidMove t)) := by
        simp [applyTokens, applyMove, hg]
      have h2 : ((t :: ts).takeWhile fun t => (g_moveTables t).isSome) = [] := by
        simp [List.takeWhile_cons, hg]
      have h3 : ((t :: ts).dropWhile fun t => (g_moveTables t).isSome) = t :: ts := by
        simp [List.dropWhile_cons, hg]
      rw [h1, h2, h3]
      simp
    | some d =>
      have h1 : applyTokens (t :: ts) c = applyTokens ts (applyDef d c) := by
        simp [applyTokens, applyMove, hg]
      have hsome : (g_moveTables t).isSome = true := by rw [hg]; rfl
      have h2 : ((t :: ts).takeWhile fun t => (g_moveTables t).isSome) =
          t :: (ts.takeWhile fun t => (g_moveTables t).isSome) := by
        simp [List.takeWhile_cons, hsome]
      have h3 : ((t :: ts).dropWhile fun t => (g_moveTables t).isSome) =
          ts.dropWhile fun t => (g_moveTables t).isSome := by
        simp [List.dropWhile_cons, hsome]
      have h4 : (applyMove t c).1 = applyDef d c := by simp [applyMove, hg]
      rw [h1, h2, h3, ih (applyDef d c)]
      simp [h4]

/-- Claim C6: applyMoves tokenizes on whitespace ignoring empty runs
and applies tokens strictly left to right; the final state is the
initial state with exactly the longest valid prefix of tokens applied,
and the reported error is InvalidMove on the first unrecognized token
when one exists. -/
theorem applyMoves_spec (s : String) (c : RubiksCube) :
    applyMoves s c =
      (((tokenize s).takeWhile fun t => (g_moveTables t).isSome).foldl
         (fun st t => (applyMove t st).1) c,
       (((tokenize s).dropWhile fun t => (g_moveTables t).isSome).head?).map
         CubeError.invalidMove) :=
  applyTokens_spec (tokenize s) c

lemma joinTokens_cons (t : String) (l : List String) (h : l ≠ []) :
    joinTokens (t :: l) = t ++ " " ++ joinTokens l := by
  cases l with
  | nil => exact absurd rfl h
  | cons a as => rfl

lemma scrambleLoop_spec (draws : Nat → Fin 18) :
    ∀ (k i : Nat) (acc : String) (c : RubiksCube),
      scrambleLoop draws k i acc c =
        (acc ++ joinTokens ((List.range k).map fun j => moveAt (draws (i + j))),
         ((List.range k).map fun j => moveAt (draws (i + j))).foldl
           (fun st t => (applyMove t st).1) c) := by
  intro k
  induction k with
  | zero =>
    intro i acc c
    simp [scrambleLoop, joinTokens, String.append_empty]
  | succ k ih =>
    intro i acc c
    have hrange : ((List.range (k + 1)).map fun j => moveAt (draws (i + j))) =
        moveAt (draws i) :: ((List.range k).map fun j => moveAt (draws (i + 1 + j))) := by
      rw [List.range_succ_eq_map]
      simp only [List.map_cons, List.map_map, Nat.add_zero]
      congr 1
      refine congrArg (fun f => List.map f (List.range k)) ?_
      funext j
      show moveAt (draws (i + Nat.succ j)) = moveAt (draws (i + 1 + j))
      rw [show i + Nat.succ j = i + 1 + j from by omega]
    rw [hrange]
    have hloop : scrambleLoop draws (k + 1) i acc c =
        scrambleLoop draws k (i + 1)
          (if k = 0 then acc ++ moveAt (draws i) else acc ++ moveAt (draws i) ++ " ")
          ((applyMove (moveAt (draws i)) c).1) := rfl
    rw [hloop, ih]
    cases k with
    | zero =>
      simp [joinTokens, String.append_empty]
    | succ n =>
      have hne : ((List.range (n + 1)).map fun j => moveAt (draws (i + 1 + j))) ≠ [] := by
        simp [List.range_succ_eq_map]
      rw [joinTokens_cons _ _ hne]
      simp only [if_neg (Nat.succ_ne_zero n), List.foldl_cons]
      simp [String.append_assoc]

/-- Claim C7: scramble with a non-positive length returns the empty
string and leaves the state unchanged; with positive length N it
returns exactly N tokens, each one of the 18 canonical names, joined
by single spaces with no leading or trailing space, and the final
state is the initial state with exactly that token sequence applied in
order. -/
theorem scramble_spec (draws : Nat → Fin 18) (len : Int) (c : RubiksCube) :
    (len ≤ 0 → scramble draws len c = ("", c)) ∧
    (0 < len →
      (scrambleTokens draws len.toNat).length = len.toNat ∧
      (∀ t ∈ scrambleTokens draws len.toNat, t ∈ canonicalNames) ∧
      scramble draws len c =
        (joinTokens (scrambleTokens draws len.toNat),
         (scrambleTokens draws len.toNat).foldl (fun st t => (applyMove t st).1) c)) := by
  constructor
  · intro h
    have h0 : len.toNat = 0 := Int.toNat_of_nonpos h
    simp [scramble, h0, scrambleLoop]
  · intro _
    refine ⟨by simp [scrambleTokens], ?_, ?_⟩
    · intro t ht
      simp only [scrambleTokens, List.mem_map, List.mem_range] at ht
      obtain ⟨j, _, rfl⟩ := ht
      have hall : ∀ i : Fin 18, moveAt i ∈ canonicalNames := by decide
      exact hall _
    · have hs : scramble draws len c = scrambleLoop draws len.toNat 0 "" c := rfl
      rw [hs, scrambleLoop_spec draws len.toNat 0 "" c]
      simp [scrambleTokens, String.empty_append]

/-- Witness for C7 at lengths -1 and 2 with a constant draw stream. -/
theorem scramble_spec_witness :
    scramble (fun _ => (0 : Fin 18)) (-1) solvedCube = ("", solvedCube) ∧
    scramble (fun _ => (0 : Fin 18)) 2 solvedCube =
      (joinTokens (scrambleTokens (fun _ => (0 : Fin 18)) ((2 : Int)).toNat),
       (scrambleTokens (fun _ => (0 : Fin 18)) ((2 : Int)).toNat).foldl
         (fun st t => (applyMove t st).1) solvedCube) :=
  ⟨(scramble_spec (fun _ => (0 : Fin 18)) (-1) solvedCube).1 (by decide),
   ((scramble_spec (fun _ => (0 : Fin 18)) 2 solvedCube).2 (by decide)).2.2⟩

/-- Claim C9: rotate maps faces 0..5 to U, D, R, L, F, B; for an
in-range face, direction 1 applies the base token, -1 the primed
token, 2 and -2 the double token, all via applyMove and without any
failure; any face outside 0..5 is a silent no-op with no error. -/
theorem rotate_spec :
    (faceName 0 = "U" ∧ faceName 1 = "D" ∧ faceName 2 = "R" ∧ faceName 3 = "L" ∧
     faceName 4 = "F" ∧ faceName 5 = "B") ∧
    (∀ (face : Int) (c : RubiksCube), 0 ≤ face → face ≤ 5 →
      rotate face 1 c = applyMove (faceName face) c ∧
      rotate face (-1) c = applyMove (faceName face ++ "\x27") c ∧
      rotate face 2 c = applyMove (faceName face ++ "2") c ∧
      rotate face (-2) c = applyMove (faceName face ++ "2") c) ∧
    (∀ (face direction : Int) (c : RubiksCube), 0 ≤ face → face ≤ 5 →
      (rotate face direction c).2 = none) ∧
    (∀ (face direction : Int) (c : RubiksCube), face < 0 ∨ 5 < face →
      rotate face direction c = (c, none)) := by
  refine ⟨⟨rfl, rfl, rfl, rfl, rfl, rfl⟩, ?_, ?_, ?_⟩
  · intro face c h0 h5
    have hin : ¬(face < 0 ∨ 5 < face) := by omega
    refine ⟨?_, ?_, ?_, ?_⟩
    · unfold rotate
      rw [if_neg hin, if_neg (by decide : ¬(1 : Int) = -1),
          if_neg (by decide : ¬((1 : Int) = 2 ∨ (1 : Int) = -2))]
    · unfold rotate
      rw [if_neg hin, if_pos rfl]
    · unfold rotate
      rw [if_neg hin, if_neg (by decide : ¬(2 : Int) = -1),
          if_pos (Or.inl rfl : (2 : Int) = 2 ∨ (2 : Int) = -2)]
    · unfold rotate
      rw [if_neg hin, if_neg (by decide : ¬(-2 : Int) = -1),
          if_pos (Or.inr rfl : (-2 : Int) = 2 ∨ (-2 : Int) = -2)]
  · intro face direction c h0 h5
    have hin : ¬(face < 0 ∨ 5 < face) := by omega
    unfold rotate
    rw [if_neg hin]
    interval_cases face <;> split_ifs <;> rfl
  · intro face direction c h
    unfold rotate
    rw [if_pos h]

/-- Witness for C9: a concrete in-range call, out-of-range call and
primed-direction call. -/
theorem rotate_spec_witness :
    (rotate 2 5 solvedCube).2 = none ∧
    rotate 7 1 solvedCube = (solvedCube, none) ∧
    rotate 0 (-1) solvedCube = applyMove (faceName 0 ++ "\x27") solvedCube :=
  ⟨rotate_spec.2.2.1 2 5 solvedCube (by decide) (by decide),
   rotate_spec.2.2.2 7 1 solvedCube (Or.inr (by decide)),
   (rotate_spec.2.1 0 solvedCube (by decide) (by decide)).2.1⟩

/-- Claim C10: for an in-range face, every direction other than -1, 2
and -2 applies the base (clockwise quarter turn) token of that face,
succeeding without error, exactly as direction 1 would. -/
theorem rotate_default_base (face : Int) (h0 : 0 ≤ face) (h5 : face ≤ 5)
    (direction : Int) (h1 : direction ≠ -1) (h2 : direction ≠ 2) (h3 : direction ≠ -2)
    (c : RubiksCube) :
    rotate face direction c = applyMove (faceName face) c ∧
    rotate face direction c = rotate face 1 c ∧
    (rotate face direction c).2 = none := by
  have hin : ¬(face < 0 ∨ 5 < face) := by omega
  have hd2 : ¬(direction = 2 ∨ direction = -2) := by tauto
  have he : rotate face direction c = applyMove (faceName face) c := by
    unfold rotate
    rw [if_neg hin, if_neg h1, if_neg hd2]
  have he1 : rotate face 1 c = applyMove (faceName face) c := by
    unfold rotate
    rw [if_neg hin, if_neg (by decide : ¬(1 : Int) = -1),
        if_neg (by decide : ¬((1 : Int) = 2 ∨ (1 : Int) = -2))]
  refine ⟨he, by rw [he, he1], ?_⟩
  rw [he]
  interval_cases face <;> rfl

/-- Witness for C10 at face 3 and direction 0. -/
theorem rotate_default_base_witness :
    rotate 3 0 solvedCube = applyMove (faceName 3) solvedCube ∧
    rotate 3 0 solvedCube = rotate 3 1 solvedCube ∧
    (rotate 3 0 solvedCube).2 = none :=
  rotate_default_base 3 (by decide) (by decide) 0 (by decide) (by decide) (by decide)
    solvedCube
